import Mathlib

/-!
Verification of the RAG text-summarizer core.

A shallow embedding of the retrieval-and-summarization engine:

* `src/algorithms/statistical.py` — `StatisticalSummarizer` (TF-IDF /
  frequency sentence scoring, top-`num_sentences` selection, re-sort by
  source position).
* `src/algorithms/extractive.py` — `ExtractiveSummarizer` (delegates the
  ranking to the sumy graph-ranking algorithms; sumy's selection step rates
  sentences, stably sorts by rating descending, keeps the first
  `num_sentences`, and re-sorts the kept sentences by document order).
* `src/rag/retrieval.py` — `VectorRetriever` over a flat L2 index
  (faiss `IndexFlatL2`), similarity `1 / (1 + d)`.
* `src/rag/pipeline.py` — `RAGPipeline` orchestration.

External components (NLTK / sumy sentence tokenization, the sentence scoring
functions, the embedding model) are parameters of the embedding: every
theorem quantifies over them, so it holds for the concrete library
implementations as well.  Sorting uses `List.insertionSort`, which is a
stable sort and therefore produces the same list as CPython's stable
`sorted` (with `reverse=True`, CPython keeps tied elements in their original
order, exactly as a stable sort of the reversed comparison does).  Machine
floats are modelled by exact rationals.
-/

namespace RagSummarizer

/-- ASCII whitespace, as recognised by Python's `str.strip` / `\s`. -/
def isSpace (c : Char) : Bool :=
  c = ' ' || c = '\t' || c = '\n' || c = '\r' || c = '\x0b' || c = '\x0c'

/-- Python `not text or not text.strip()` — true iff the string has no
non-whitespace character (in particular for the empty string). -/
def isBlank (text : String) : Bool :=
  text.toList.all isSpace

/-- Collapse each whitespace run to a single `' '`
(`re.sub(r'\s+', ' ', text)`).  The flag records whether the previous
character was part of a whitespace run already emitted. -/
def squeezeAux : Bool → List Char → List Char
  | _, [] => []
  | prevSpace, c :: cs =>
    if isSpace c then
      if prevSpace then squeezeAux true cs
      else ' ' :: squeezeAux true cs
    else c :: squeezeAux false cs

/-- Python `str.strip()` on a character list. -/
def stripChars (l : List Char) : List Char :=
  ((l.dropWhile isSpace).reverse.dropWhile isSpace).reverse

/-- Embeds `StatisticalSummarizer._preprocess_text`:
`re.sub(r'\s+', ' ', text).strip()`. -/
def preprocessText (text : String) : String :=
  (stripChars (squeezeAux false text.toList)).asString

/-- Descending-score comparison used by
`sorted(sentence_scores, key=sentence_scores.get, reverse=True)` (and by
sumy's `sorted(infos, key=attrgetter("rating"), reverse=True)`). -/
def scoreDesc (score : Nat → ℚ) (i j : Nat) : Prop :=
  score j ≤ score i

instance (score : Nat → ℚ) : DecidableRel (scoreDesc score) :=
  fun i j => inferInstanceAs (Decidable (score j ≤ score i))

instance (score : Nat → ℚ) : IsTotal Nat (scoreDesc score) :=
  ⟨fun a b => le_total (score b) (score a)⟩

instance (score : Nat → ℚ) : IsTrans Nat (scoreDesc score) :=
  ⟨fun _ _ _ hab hbc => le_trans hbc hab⟩

/-- The index-selection policy shared by both summarizer families:
stably sort the sentence indices `0 .. n-1` by score descending, keep the
first `k`, then re-sort the kept indices ascending
(`sorted(sentence_scores, key=sentence_scores.get, reverse=True)[:k]`
followed by `sorted(top_indices)`). -/
def bestIndices (score : Nat → ℚ) (n k : Nat) : List Nat :=
  List.insertionSort (· ≤ ·)
    ((List.insertionSort (scoreDesc score) (List.range n)).take k)

/-- Embeds `ExtractiveSummarizer.summarize`.  `tok` models the sumy/NLTK sentence
splitter (`PlaintextParser` + `Tokenizer("english")`, with `str(sentence)`
applied to each sentence); `score` models the converged TextRank / LexRank /
Luhn sentence ratings.  sumy's `_get_best_sentences` is the `bestIndices`
selection above; the chosen sentences are joined by `" ".join(...)`. -/
def extractiveSummarize (tok : String → List String)
    (score : List String → Nat → ℚ) (text : String) (numSentences : Nat) :
    String :=
  if isBlank text then ""
  else
    let sents := tok text
    String.intercalate " "
      ((bestIndices (score sents) sents.length numSentences).map
        fun i => sents.getD i "")

/-- The list of sentences making up the extractive summary (the summary
string is their `" "`-join). -/
def extractiveSummarySentences (tok : String → List String)
    (score : List String → Nat → ℚ) (text : String) (numSentences : Nat) :
    List String :=
  if isBlank text then []
  else
    let sents := tok text
    (bestIndices (score sents) sents.length numSentences).map
      fun i => sents.getD i ""

/-- Embeds `StatisticalSummarizer.summarize`.  `tok` models `nltk.sent_tokenize`;
`score` models `_calculate_sentence_scores_tfidf` /
`_calculate_sentence_scores_frequency` (a map from sentence index to
score).  If the document has at most `numSentences` sentences the
whitespace-normalized text is returned unchanged; otherwise the
`bestIndices` selection is joined by `" ".join(...)`. -/
def statisticalSummarize (tok : String → List String)
    (score : List String → Nat → ℚ) (text : String) (numSentences : Nat) :
    String :=
  if isBlank text then ""
  else
    let t := preprocessText text
    let sents := tok t
    if sents.length ≤ numSentences then t
    else
      String.intercalate " "
        ((bestIndices (score sents) sents.length numSentences).map
          fun i => sents.getD i "")

/-- The list of sentences making up the statistical summary (in the
small-document branch the summary is the normalized text itself, whose
sentence split is `tok (preprocessText text)`). -/
def statisticalSummarySentences (tok : String → List String)
    (score : List String → Nat → ℚ) (text : String) (numSentences : Nat) :
    List String :=
  if isBlank text then []
  else
    let t := preprocessText text
    let sents := tok t
    if sents.length ≤ numSentences then sents
    else
      (bestIndices (score sents) sents.length numSentences).map
        fun i => sents.getD i ""

/-- The error conditions actually raised (as `ValueError`) by the code:
`"Index not built. Call build_index() first."` (retrieval.py),
`"Documents not indexed. Call index_documents() first."` (pipeline.py) and
`"Cannot build index from empty document list"` (retrieval.py). -/
inductive PipelineError where
  | notBuilt
  | notIndexed
  | emptyCorpus
deriving DecidableEq

/-- Embedding vectors (numpy float arrays modelled by exact rationals). -/
abbrev Vec := List ℚ

/-- Squared L2 distance, the raw distance returned by a faiss
`IndexFlatL2` search. -/
def sqDist : Vec → Vec → ℚ
  | a :: u, b :: v => (a - b) * (a - b) + sqDist u v
  | _, _ => 0

/-- Comparison used by the flat L2 index: smaller distance first, equal
distances broken by ascending vector id (the order in which faiss's
exhaustive flat scan reports exact nearest neighbours). -/
def distPairLe (a b : Nat × ℚ) : Prop :=
  a.2 < b.2 ∨ (a.2 = b.2 ∧ a.1 ≤ b.1)

instance : DecidableRel distPairLe :=
  fun a b =>
    inferInstanceAs (Decidable (a.2 < b.2 ∨ (a.2 = b.2 ∧ a.1 ≤ b.1)))

instance : IsTotal (Nat × ℚ) distPairLe := by
  constructor
  intro a b
  rcases lt_trichotomy a.2 b.2 with h | h | h
  · exact Or.inl (Or.inl h)
  · rcases Nat.le_total a.1 b.1 with hi | hi
    · exact Or.inl (Or.inr ⟨h, hi⟩)
    · exact Or.inr (Or.inr ⟨h.symm, hi⟩)
  · exact Or.inr (Or.inl h)

instance : IsTrans (Nat × ℚ) distPairLe := by
  constructor
  intro a b c hab hbc
  rcases hab with hab | ⟨hab, hab'⟩
  · rcases hbc with hbc | ⟨hbc, _⟩
    · exact Or.inl (hab.trans hbc)
    · exact Or.inl (hbc ▸ hab)
  · rcases hbc with hbc | ⟨hbc, hbc'⟩
    · exact Or.inl (hab ▸ hbc)
    · exact Or.inr ⟨hab.trans hbc, hab'.trans hbc'⟩

/-- Models `faiss.IndexFlatL2.search`: the `k` stored vectors nearest to `q`, as
`(id, squared L2 distance)` pairs, ordered by ascending distance with ties
broken by ascending id. -/
def searchHits (vecs : List Vec) (q : Vec) (k : Nat) : List (Nat × ℚ) :=
  (List.insertionSort distPairLe
    ((List.range vecs.length).map fun i => (i, sqDist q (vecs.getD i [])))).take k

/-- State of a `VectorRetriever`: the embedding model, the optional built faiss
index (`None` until `build_index`), the stored documents and their
metadata.  `M` is the metadata type (Python uses dicts). -/
structure VectorRetriever (M : Type) where
  embed : String → Vec
  index : Option (List Vec)
  documents : List String
  metadata : List M

/-- Embeds `VectorRetriever.__init__`: no index, no documents, no metadata. -/
def initRetriever {M : Type} (embed : String → Vec) : VectorRetriever M :=
  { embed := embed, index := none, documents := [], metadata := [] }

/-- Embeds `VectorRetriever.build_index`.  Fails on an empty document list;
otherwise stores the documents, their metadata (defaulted to one empty dict
`dm` per document when `metadata` is absent or empty, since Python tests
`if metadata` for truthiness) and the embeddings of all documents. -/
def buildIndex {M : Type} (r : VectorRetriever M) (docs : List String)
    (meta : Option (List M)) (dm : M) :
    Except PipelineError (VectorRetriever M) :=
  if docs.isEmpty then .error .emptyCorpus
  else
    .ok { r with
          documents := docs
          metadata :=
            match meta with
            | some m => if m.isEmpty then docs.map fun _ => dm else m
            | none => docs.map fun _ => dm
          index := some (docs.map r.embed) }

/-- Embeds `VectorRetriever.retrieve`.  Fails with `NotBuilt` before `build_index`;
otherwise searches the index with `min(top_k, len(self.documents))`,
converts each distance `d` to the similarity `1 / (1 + d)` and returns the
`(document, similarity, metadata)` tuples, keeping only hits whose id is in
range (`if idx < len(self.documents)`). -/
def retrieve {M : Type} (r : VectorRetriever M) (query : String)
    (topK : Nat) (dm : M) :
    Except PipelineError (List (String × ℚ × M)) :=
  match r.index with
  | none => .error .notBuilt
  | some vecs =>
    let hits := searchHits vecs (r.embed query) (min topK r.documents.length)
    .ok (hits.filterMap fun p =>
      if p.1 < r.documents.length then
        some (r.documents.getD p.1 "", 1 / (1 + p.2), r.metadata.getD p.1 dm)
      else none)

/-- The method `retrieve` as a state transition: the Python method reads `self` but
never assigns to it, so the resulting retriever state is the input state. -/
def retrieveStep {M : Type} (r : VectorRetriever M) (query : String)
    (topK : Nat) (dm : M) :
    Except PipelineError (List (String × ℚ × M)) × VectorRetriever M :=
  (retrieve r query topK dm, r)

/-- The dictionary returned by `RAGPipeline.query_and_summarize`. -/
structure QueryResult (M : Type) where
  query : String
  retrievedDocuments : List (String × ℚ × M)
  summary : String
  numRetrieved : Nat
deriving DecidableEq

/-- State of a `RAGPipeline`: the embedding model, the NLP components of the two
summarizers it owns (`ExtractiveSummarizer("textrank")` and
`StatisticalSummarizer("tfidf")`, modelled by their tokenizer and scoring
functions) and the optional retriever (`None` = `Unindexed` state). -/
structure RAGPipeline (M : Type) where
  embed : String → Vec
  sentTok : String → List String
  extScore : List String → Nat → ℚ
  statScore : List String → Nat → ℚ
  retriever : Option (VectorRetriever M)

/-- Embeds `RAGPipeline.index_documents`: `create_retriever` builds a fresh
`VectorRetriever` over the pipeline's embedding model; on success the
pipeline transitions to the `Indexed` state. -/
def indexDocuments {M : Type} (p : RAGPipeline M) (docs : List String)
    (meta : Option (List M)) (dm : M) :
    Except PipelineError (RAGPipeline M) :=
  match buildIndex (initRetriever p.embed) docs meta dm with
  | .error e => .error e
  | .ok r => .ok { p with retriever := some r }

/-- Embeds `RAGPipeline.query_and_summarize`.  Fails with `NotIndexed` before
`index_documents`; otherwise retrieves, joins the retrieved documents with
`" ".join(...)` and summarizes the concatenation — with the extractive
summarizer when `method == "extractive"` and with the statistical
summarizer for every other method string. -/
def queryAndSummarize {M : Type} (p : RAGPipeline M) (query : String)
    (topK numSentences : Nat) (method : String) (dm : M) :
    Except PipelineError (QueryResult M) :=
  match p.retriever with
  | none => .error .notIndexed
  | some r =>
    match retrieve r query topK dm with
    | .error e => .error e
    | .ok results =>
      let combined := String.intercalate " " (results.map fun t => t.1)
      let summary :=
        if method == "extractive" then
          extractiveSummarize p.sentTok p.extScore combined numSentences
        else
          statisticalSummarize p.sentTok p.statScore combined numSentences
      .ok { query := query
            retrievedDocuments := results
            summary := summary
            numRetrieved := results.length }

/-- The method `query_and_summarize` as a state transition: the method never assigns
to `self`, so the resulting pipeline state is the input state. -/
def queryAndSummarizeStep {M : Type} (p : RAGPipeline M) (query : String)
    (topK numSentences : Nat) (method : String) (dm : M) :
    Except PipelineError (QueryResult M) × RAGPipeline M :=
  (queryAndSummarize p query topK numSentences method dm, p)

/-! ## Helper lemmas about the selection policy -/

theorem bestIndices_nodup (score : Nat → ℚ) (n k : Nat) :
    (bestIndices score n k).Nodup := by
  have h1 : (List.insertionSort (scoreDesc score) (List.range n)).Nodup :=
    ((List.perm_insertionSort _ _).nodup_iff).mpr (List.nodup_range n)
  have h2 :
      ((List.insertionSort (scoreDesc score) (List.range n)).take k).Nodup :=
    (List.take_sublist _ _).nodup h1
  exact ((List.perm_insertionSort _ _).nodup_iff).mpr h2

theorem bestIndices_sorted (score : Nat → ℚ) (n k : Nat) :
    (bestIndices score n k).Pairwise (· < ·) := by
  have hs : (bestIndices score n k).Pairwise (· ≤ ·) :=
    List.sorted_insertionSort _ _
  have hne : (bestIndices score n k).Pairwise (· ≠ ·) :=
    bestIndices_nodup score n k
  exact (hs.and hne).imp fun h => lt_of_le_of_ne h.1 h.2

theorem bestIndices_lt (score : Nat → ℚ) (n k : Nat) :
    ∀ i ∈ bestIndices score n k, i < n := by
  intro i hi
  rw [bestIndices, List.mem_insertionSort] at hi
  have h2 := List.mem_of_mem_take hi
  rw [List.mem_insertionSort] at h2
  exact List.mem_range.mp h2

theorem bestIndices_length (score : Nat → ℚ) (n k : Nat) :
    (bestIndices score n k).length = min k n := by
  simp [bestIndices]

/-- When the whole document fits in the summary, the selection keeps every
sentence index, in source order. -/
theorem bestIndices_of_le (score : Nat → ℚ) {n k : Nat} (h : n ≤ k) :
    bestIndices score n k = List.range n := by
  rw [bestIndices,
    List.take_of_length_le (by simpa using h)]
  refine List.eq_of_perm_of_sorted
    ((List.perm_insertionSort _ _).trans (List.perm_insertionSort _ _))
    (List.sorted_insertionSort _ _) ?_
  exact (List.pairwise_lt_range n).imp le_of_lt

/-- Reading a list at a strictly increasing, in-bounds list of positions
yields a sublist: the extracted elements appear in source order. -/
theorem mapGetD_sublist {α : Type} (d : α) :
    ∀ (l : List α) (is : List Nat), is.Pairwise (· < ·) →
      (∀ i ∈ is, i < l.length) →
      List.Sublist (is.map fun i => l.getD i d) l := by
  intro l
  induction l with
  | nil =>
    intro is _ hb
    cases is with
    | nil => simp
    | cons i is => exact absurd (hb i (List.mem_cons_self i is)) (by simp)
  | cons a l ih =>
    intro is hp hb
    cases is with
    | nil => simp
    | cons i is =>
      have htail : is.Pairwise (· < ·) := (List.pairwise_cons.mp hp).2
      have hhead : ∀ j ∈ is, i < j := (List.pairwise_cons.mp hp).1
      cases i with
      | zero =>
        have hpos : ∀ j ∈ is, 0 < j := hhead
        have hmap : is.map (fun j => (a :: l).getD j d)
            = (is.map fun j => j - 1).map fun j => l.getD j d := by
          rw [List.map_map]
          refine List.map_congr_left ?_
          intro j hj
          obtain ⟨j', rfl⟩ := Nat.exists_eq_add_of_le (hpos j hj)
          simp [Nat.add_comm 1 j', List.getD_cons_succ]
        simp only [List.map_cons, List.getD_cons_zero, hmap]
        refine List.Sublist.cons₂ a (ih _ ?_ ?_)
        · rw [List.pairwise_map]
          exact htail.imp_of_mem fun ha _ hlt =>
            Nat.sub_lt_sub_right (hpos _ ha) hlt
        · intro j hj
          obtain ⟨j0, hj0, rfl⟩ := List.mem_map.mp hj
          have h1 := hb j0 (List.mem_cons_of_mem _ hj0)
          have h2 := hpos j0 hj0
          simp only [List.length_cons] at h1
          omega
      | succ i0 =>
        have hpos : ∀ j ∈ (i0 + 1) :: is, 0 < j := by
          intro j hj
          rcases List.mem_cons.mp hj with rfl | hj
          · exact Nat.succ_pos i0
          · exact Nat.lt_trans (Nat.succ_pos i0) (hhead j hj)
        have hmap : ((i0 + 1) :: is).map (fun j => (a :: l).getD j d)
            = (((i0 + 1) :: is).map fun j => j - 1).map
                fun j => l.getD j d := by
          rw [List.map_map]
          refine List.map_congr_left ?_
          intro j hj
          obtain ⟨j', rfl⟩ := Nat.exists_eq_add_of_le (hpos j hj)
          simp [Nat.add_comm 1 j', List.getD_cons_succ]
        rw [hmap]
        refine List.Sublist.cons a (ih _ ?_ ?_)
        · rw [List.pairwise_map]
          exact hp.imp_of_mem fun ha _ hlt =>
            Nat.sub_lt_sub_right (hpos _ ha) hlt
        · intro j hj
          obtain ⟨j0, hj0, rfl⟩ := List.mem_map.mp hj
          have h1 := hb j0 hj0
          have h2 := hpos j0 hj0
          simp only [List.length_cons] at h1
          omega

/-- Reading a list at all positions `0 .. length-1` in order reproduces the
list. -/
theorem mapGetD_range {α : Type} (d : α) :
    ∀ l : List α, ((List.range l.length).map fun i => l.getD i d) = l := by
  intro l
  induction l with
  | nil => simp
  | cons a l ih =>
    rw [List.length_cons, List.range_succ_eq_map, List.map_cons,
      List.map_map]
    simp only [List.getD_cons_zero]
    have hc : ((fun i => (a :: l).getD i d) ∘ Nat.succ)
        = fun i => l.getD i d := by
      funext i
      simp [List.getD_cons_succ]
    rw [hc, ih]

/-! ## Helper lemmas about the flat L2 index -/

theorem sqDist_nonneg : ∀ u v : Vec, 0 ≤ sqDist u v := by
  intro u
  induction u with
  | nil => intro v; cases v <;> simp [sqDist]
  | cons a u ih =>
    intro v
    cases v with
    | nil => simp [sqDist]
    | cons b v =>
      have h1 : 0 ≤ (a - b) * (a - b) := mul_self_nonneg _
      have h2 := ih v
      simpa [sqDist] using add_nonneg h1 h2

theorem searchHits_pairwise (vecs : List Vec) (q : Vec) (k : Nat) :
    (searchHits vecs q k).Pairwise distPairLe :=
  List.Pairwise.sublist (List.take_sublist _ _)
    (List.sorted_insertionSort _ _)

theorem searchHits_mem (vecs : List Vec) (q : Vec) (k : Nat) :
    ∀ p ∈ searchHits vecs q k,
      p.1 < vecs.length ∧ 0 ≤ p.2 ∧ p.2 = sqDist q (vecs.getD p.1 []) := by
  intro p hp
  have h1 := List.mem_of_mem_take hp
  rw [List.mem_insertionSort] at h1
  obtain ⟨i, hi, rfl⟩ := List.mem_map.mp h1
  exact ⟨List.mem_range.mp hi, sqDist_nonneg _ _, rfl⟩

theorem searchHits_nodup_fst (vecs : List Vec) (q : Vec) (k : Nat) :
    ((searchHits vecs q k).map Prod.fst).Nodup := by
  have hfst : (((List.range vecs.length).map
      fun i => (i, sqDist q (vecs.getD i []))).map Prod.fst)
      = List.range vecs.length := by
    rw [List.map_map]
    have hid : (Prod.fst ∘ fun i => (i, sqDist q (vecs.getD i []))) = id :=
      rfl
    rw [hid, List.map_id]
  have hperm :
      ((List.insertionSort distPairLe ((List.range vecs.length).map
        fun i => (i, sqDist q (vecs.getD i [])))).map Prod.fst).Nodup := by
    have hp := (List.perm_insertionSort distPairLe
      ((List.range vecs.length).map
        fun i => (i, sqDist q (vecs.getD i [])))).map Prod.fst
    refine hp.nodup_iff.mpr ?_
    rw [hfst]
    exact List.nodup_range _
  rw [searchHits, List.map_take]
  exact (List.take_sublist _ _).nodup hperm

theorem searchHits_length (vecs : List Vec) (q : Vec) (k : Nat) :
    (searchHits vecs q k).length = min k vecs.length := by
  simp [searchHits]

/-- The in-range guard in `retrieve` keeps every hit when all ids are in
range. -/
theorem filterMap_guard_eq_map {α β : Type} (P : α → Prop) [DecidablePred P]
    (f : α → β) :
    ∀ l : List α, (∀ a ∈ l, P a) →
      (l.filterMap fun a => if P a then some (f a) else none) = l.map f := by
  intro l
  induction l with
  | nil => intro _; rfl
  | cons a l ih =>
    intro h
    rw [List.filterMap_cons, List.map_cons]
    rw [if_pos (h a (List.mem_cons_self a l))]
    rw [ih fun b hb => h b (List.mem_cons_of_mem a hb)]

/-! ## Concrete instances used to witness the theorems -/

/-- A trivial sentence tokenizer: the whole text is one sentence. -/
def oneTok : String → List String := fun s => [s]

/-- A tokenizer producing a fixed two-sentence split. -/
def twoTok : String → List String := fun _ => ["One two.", "Three four."]

/-- A constant sentence-scoring function. -/
def zeroScore : List String → Nat → ℚ := fun _ _ => 0

/-! ## Claims about the summarizers -/

/-- C2: for every tokenizer, every scoring function (hence for both the
graph-ranking and the statistical family, whatever their scores), every
text and every `num_sentences`, the sentences of the produced summary form
a sublist of the source sentence list — they occur in the same relative
order as in the source text — and the summary string is their `" "`-join
(for the statistical family, in the ranking branch
`num_sentences < sentence count`). -/
theorem summary_preserves_source_order
    (tok : String → List String) (score : List String → Nat → ℚ)
    (text : String) (num : Nat) :
    ((statisticalSummarySentences tok score text num).Sublist
        (tok (preprocessText text))
      ∧ (isBlank text = false →
          num < (tok (preprocessText text)).length →
          statisticalSummarize tok score text num =
            String.intercalate " "
              (statisticalSummarySentences tok score text num)))
    ∧ ((extractiveSummarySentences tok score text num).Sublist (tok text)
      ∧ extractiveSummarize tok score text num =
          String.intercalate " "
            (extractiveSummarySentences tok score text num)) := by
  refine ⟨⟨?_, ?_⟩, ?_, ?_⟩
  · cases hb : isBlank text
    · by_cases hn : (tok (preprocessText text)).length ≤ num
      · simp only [statisticalSummarySentences, hb]
        simp [hn]
      · simp only [statisticalSummarySentences, hb]
        simp only [Bool.false_eq_true, if_false, hn]
        exact mapGetD_sublist "" _ _ (bestIndices_sorted _ _ _)
          (bestIndices_lt _ _ _)
    · simp [statisticalSummarySentences, hb]
  · intro hb hn
    have hn' : ¬ (tok (preprocessText text)).length ≤ num := not_le.mpr hn
    simp [statisticalSummarize, statisticalSummarySentences, hb, hn']
  · cases hb : isBlank text
    · simp only [extractiveSummarySentences, hb, Bool.false_eq_true,
        if_false]
      exact mapGetD_sublist "" _ _ (bestIndices_sorted _ _ _)
        (bestIndices_lt _ _ _)
    · simp [extractiveSummarySentences, hb]
  · cases hb : isBlank text
    · simp [extractiveSummarize, extractiveSummarySentences, hb]
    · simp [extractiveSummarize, extractiveSummarySentences, hb,
        String.intercalate]

/-- Witness for C2 at a concrete two-sentence input with
`num_sentences = 1`. -/
theorem summary_preserves_source_order_witness :
    ((statisticalSummarySentences twoTok zeroScore "One two. Three four." 1).Sublist
        (twoTok (preprocessText "One two. Three four."))
      ∧ statisticalSummarize twoTok zeroScore "One two. Three four." 1 =
          String.intercalate " "
            (statisticalSummarySentences twoTok zeroScore
              "One two. Three four." 1))
    ∧ ((extractiveSummarySentences twoTok zeroScore
          "One two. Three four." 1).Sublist (twoTok "One two. Three four.")
      ∧ extractiveSummarize twoTok zeroScore "One two. Three four." 1 =
          String.intercalate " "
            (extractiveSummarySentences twoTok zeroScore
              "One two. Three four." 1)) :=
  ⟨⟨(summary_preserves_source_order twoTok zeroScore
        "One two. Three four." 1).1.1,
    (summary_preserves_source_order twoTok zeroScore
        "One two. Three four." 1).1.2 (by decide) (by decide)⟩,
    (summary_preserves_source_order twoTok zeroScore
      "One two. Three four." 1).2⟩

/-- C3: for every non-blank text with at most `num_sentences` sentences,
the statistical summarizer returns the whitespace-normalized text
unchanged, and the extractive summarizer returns the `" "`-join of all its
sentences (its sentence-boundary-normalized text) unchanged. -/
theorem small_input_returns_full_text
    (tok : String → List String) (score : List String → Nat → ℚ)
    (text : String) (num : Nat) :
    (isBlank text = false → (tok (preprocessText text)).length ≤ num →
      statisticalSummarize tok score text num = preprocessText text)
    ∧ (isBlank text = false → (tok text).length ≤ num →
      extractiveSummarize tok score text num =
        String.intercalate " " (tok text)) := by
  constructor
  · intro hb hn
    simp [statisticalSummarize, hb, hn]
  · intro hb hn
    simp only [extractiveSummarize, hb, Bool.false_eq_true, if_false]
    rw [bestIndices_of_le _ hn, mapGetD_range]

/-- Witness for C3 at a concrete two-sentence input with
`num_sentences = 5`. -/
theorem small_input_returns_full_text_witness :
    statisticalSummarize twoTok zeroScore "One two. Three four." 5 =
        preprocessText "One two. Three four."
    ∧ extractiveSummarize twoTok zeroScore "One two. Three four." 5 =
        String.intercalate " " (twoTok "One two. Three four.") :=
  ⟨(small_input_returns_full_text twoTok zeroScore
      "One two. Three four." 5).1 (by decide) (by decide),
    (small_input_returns_full_text twoTok zeroScore
      "One two. Three four." 5).2 (by decide) (by decide)⟩

/-- The statistical summary has
`min (sentence count) num_sentences` sentences (`0` on blank input). -/
theorem statisticalSummarySentences_length
    (tok : String → List String) (score : List String → Nat → ℚ)
    (text : String) (num : Nat) :
    (statisticalSummarySentences tok score text num).length =
      if isBlank text then 0
      else min (tok (preprocessText text)).length num := by
  cases hb : isBlank text
  · by_cases hn : (tok (preprocessText text)).length ≤ num
    · simp [statisticalSummarySentences, hb, hn, Nat.min_eq_left hn]
    · simp only [statisticalSummarySentences, hb, Bool.false_eq_true,
        if_false, hn, List.length_map]
      rw [bestIndices_length, Nat.min_comm]
  · simp [statisticalSummarySentences, hb]

/-- The extractive summary has
`min (sentence count) num_sentences` sentences (`0` on blank input). -/
theorem extractiveSummarySentences_length
    (tok : String → List String) (score : List String → Nat → ℚ)
    (text : String) (num : Nat) :
    (extractiveSummarySentences tok score text num).length =
      if isBlank text then 0 else min (tok text).length num := by
  cases hb : isBlank text
  · simp only [extractiveSummarySentences, hb, Bool.false_eq_true,
      if_false, List.length_map]
    rw [bestIndices_length, Nat.min_comm]
  · simp [extractiveSummarySentences, hb]

/-- C9: for a fixed input text and tokenizer/scoring, the sentence count of
the produced summary is monotonically non-decreasing in `num_sentences`,
for both summarizer families. -/
theorem summary_length_monotone
    (tok : String → List String) (score : List String → Nat → ℚ)
    (text : String) (n1 n2 : Nat) (h : n1 ≤ n2) :
    (statisticalSummarySentences tok score text n1).length ≤
        (statisticalSummarySentences tok score text n2).length
    ∧ (extractiveSummarySentences tok score text n1).length ≤
        (extractiveSummarySentences tok score text n2).length := by
  constructor
  · rw [statisticalSummarySentences_length, statisticalSummarySentences_length]
    cases hb : isBlank text
    · simp only [Bool.false_eq_true, if_false]
      exact min_le_min (Nat.le_refl _) h
    · simp
  · rw [extractiveSummarySentences_length, extractiveSummarySentences_length]
    cases hb : isBlank text
    · simp only [Bool.false_eq_true, if_false]
      exact min_le_min (Nat.le_refl _) h
    · simp

/-- Witness for C9 at `n1 = 1 ≤ 2 = n2` on a concrete input. -/
theorem summary_length_monotone_witness :
    (statisticalSummarySentences twoTok zeroScore "One two. Three four." 1).length ≤
        (statisticalSummarySentences twoTok zeroScore "One two. Three four." 2).length
    ∧ (extractiveSummarySentences twoTok zeroScore "One two. Three four." 1).length ≤
        (extractiveSummarySentences twoTok zeroScore "One two. Three four." 2).length :=
  summary_length_monotone twoTok zeroScore "One two. Three four." 1 2
    (by decide)

/-- C10: on empty or whitespace-only text both summarizers return the empty
string; being total `String`-valued functions they surface no error
condition to the caller. -/
theorem blank_input_returns_empty
    (tok1 : String → List String) (score1 : List String → Nat → ℚ)
    (tok2 : String → List String) (score2 : List String → Nat → ℚ)
    (num : Nat) (text : String) (h : isBlank text = true) :
    extractiveSummarize tok1 score1 text num = ""
    ∧ statisticalSummarize tok2 score2 text num = "" := by
  constructor
  · simp [extractiveSummarize, h]
  · simp [statisticalSummarize, h]

/-- Witness for C10 at a whitespace-only input. -/
theorem blank_input_returns_empty_witness :
    isBlank "  " = true
    ∧ (extractiveSummarize oneTok zeroScore "  " 3 = ""
        ∧ statisticalSummarize oneTok zeroScore "  " 3 = "") :=
  ⟨by decide,
    blank_input_returns_empty oneTok zeroScore oneTok zeroScore 3 "  "
      (by decide)⟩

/-- C5 (divergence evaluation): at the failing inputs — empty text and
whitespace-only text — the code returns `""` and raises nothing, instead of
failing with an `InvalidInput` error as the specification and the
repository's own tests (`test_empty_text`) require. -/
theorem blank_input_code_result :
    statisticalSummarize oneTok zeroScore "" 3 = ""
    ∧ extractiveSummarize oneTok zeroScore "   " 3 = "" := by
  constructor
  · rfl
  · rfl

/-! ## Claims about retrieval and the pipeline -/

/-- On a retriever produced by `build_index`, `retrieve` succeeds and
returns exactly the search hits, each converted to a
`(document, 1 / (1 + distance), metadata)` tuple (the in-range guard keeps
every hit, since all ids returned by the flat index are in range). -/
theorem retrieve_of_buildIndex {M : Type} (r0 : VectorRetriever M)
    (docs : List String) (meta : Option (List M)) (dm : M)
    (r : VectorRetriever M) (h : buildIndex r0 docs meta dm = Except.ok r)
    (q : String) (topK : Nat) (dmr : M) :
    retrieve r q topK dmr = Except.ok
      ((searchHits (docs.map r0.embed) (r0.embed q)
          (min topK docs.length)).map
        fun p => (docs.getD p.1 "", 1 / (1 + p.2),
          r.metadata.getD p.1 dmr)) := by
  rw [buildIndex.eq_def] at h
  by_cases hd : docs.isEmpty
  · rw [if_pos hd] at h
    cases h
  · rw [if_neg hd] at h
    have hr := Except.ok.inj h
    subst hr
    simp only [retrieve]
    congr 1
    refine filterMap_guard_eq_map
      (fun p : Nat × ℚ => p.1 < docs.length) _ _ ?_
    intro p hp
    have h1 := (searchHits_mem _ _ _ p hp).1
    rwa [List.length_map] at h1

/-- C1: on every built index and every query, `retrieve` returns the list
of `(document, similarity, metadata)` tuples in which each similarity is
`1 / (1 + d)` for the corresponding (squared) L2 distance `d` of that
document's stored embedding to the query embedding, every similarity lies
in `(0, 1]`, and the list is ordered by non-increasing similarity with
equal similarities broken by ascending insertion position. -/
theorem retrieve_result_spec {M : Type} (r0 : VectorRetriever M)
    (docs : List String) (meta : Option (List M)) (dm : M)
    (r : VectorRetriever M) (h : buildIndex r0 docs meta dm = Except.ok r)
    (q : String) (topK : Nat) (dmr : M) :
    ∃ hits : List (Nat × ℚ),
      retrieve r q topK dmr = Except.ok (hits.map fun p =>
        (docs.getD p.1 "", 1 / (1 + p.2), r.metadata.getD p.1 dmr))
      ∧ (∀ p ∈ hits,
          p.2 = sqDist (r0.embed q) ((docs.map r0.embed).getD p.1 []))
      ∧ (∀ p ∈ hits, 0 < 1 / (1 + p.2) ∧ 1 / (1 + p.2) ≤ 1)
      ∧ hits.Pairwise (fun a b =>
          1 / (1 + b.2) < 1 / (1 + a.2)
          ∨ (1 / (1 + a.2) = 1 / (1 + b.2) ∧ a.1 < b.1)) := by
  refine ⟨searchHits (docs.map r0.embed) (r0.embed q)
      (min topK docs.length),
    retrieve_of_buildIndex r0 docs meta dm r h q topK dmr, ?_, ?_, ?_⟩
  · intro p hp
    exact (searchHits_mem _ _ _ p hp).2.2
  · intro p hp
    have h0 : (0 : ℚ) ≤ p.2 := (searchHits_mem _ _ _ p hp).2.1
    have hpos : (0 : ℚ) < 1 + p.2 := by linarith
    constructor
    · exact one_div_pos.mpr hpos
    · rw [div_le_one hpos]
      linarith
  · have hsorted := searchHits_pairwise (docs.map r0.embed) (r0.embed q)
      (min topK docs.length)
    have hnodup := searchHits_nodup_fst (docs.map r0.embed) (r0.embed q)
      (min topK docs.length)
    have hne : (searchHits (docs.map r0.embed) (r0.embed q)
        (min topK docs.length)).Pairwise fun a b => a.1 ≠ b.1 :=
      List.pairwise_map.mp hnodup
    have hstrict : (searchHits (docs.map r0.embed) (r0.embed q)
        (min topK docs.length)).Pairwise fun a b =>
          a.2 < b.2 ∨ (a.2 = b.2 ∧ a.1 < b.1) :=
      (hsorted.and hne).imp
        (fun h' => by
          rcases h'.1 with hlt | ⟨heq, hle⟩
          · exact Or.inl hlt
          · exact Or.inr ⟨heq, lt_of_le_of_ne hle h'.2⟩)
    refine hstrict.imp_of_mem ?_
    intro a b ha _ hab
    have ha0 : (0 : ℚ) ≤ a.2 := (searchHits_mem _ _ _ a ha).2.1
    have hapos : (0 : ℚ) < 1 + a.2 := by linarith
    rcases hab with hlt | ⟨heq, hidx⟩
    · exact Or.inl (one_div_lt_one_div_of_lt hapos (by linarith))
    · exact Or.inr ⟨by rw [heq], hidx⟩

/-- A concrete embedding model used to witness the retrieval theorems. -/
def embedW : String → Vec := fun s => [(s.length : ℚ)]

/-- A fresh (unbuilt) retriever over `embedW`. -/
def retrW0 : VectorRetriever Unit := initRetriever embedW

/-- The retriever obtained by building an index over two documents. -/
def retrW : VectorRetriever Unit :=
  { embed := embedW
    index := some (["a", "bcd"].map embedW)
    documents := ["a", "bcd"]
    metadata := ["a", "bcd"].map fun _ => () }

/-- Witness for C1 on a concrete two-document index. -/
theorem retrieve_result_spec_witness :
    ∃ hits : List (Nat × ℚ),
      retrieve retrW "xy" 5 () = Except.ok (hits.map fun p =>
        (["a", "bcd"].getD p.1 "", 1 / (1 + p.2),
          retrW.metadata.getD p.1 ()))
      ∧ (∀ p ∈ hits, p.2 = sqDist (retrW0.embed "xy")
          ((["a", "bcd"].map retrW0.embed).getD p.1 []))
      ∧ (∀ p ∈ hits, 0 < 1 / (1 + p.2) ∧ 1 / (1 + p.2) ≤ 1)
      ∧ hits.Pairwise (fun a b =>
          1 / (1 + b.2) < 1 / (1 + a.2)
          ∨ (1 / (1 + a.2) = 1 / (1 + b.2) ∧ a.1 < b.1)) :=
  retrieve_result_spec retrW0 ["a", "bcd"] none () retrW (by rfl) "xy" 5 ()

/-- C4: on every built index over `n` documents, `retrieve` returns exactly
`min top_k n` results; in particular, exactly `n` results when
`top_k > n`. -/
theorem retrieve_result_count {M : Type} (r0 : VectorRetriever M)
    (docs : List String) (meta : Option (List M)) (dm : M)
    (r : VectorRetriever M) (h : buildIndex r0 docs meta dm = Except.ok r)
    (q : String) (topK : Nat) (dmr : M) :
    ∃ res, retrieve r q topK dmr = Except.ok res
      ∧ res.length = min topK docs.length
      ∧ (docs.length < topK → res.length = docs.length) := by
  refine ⟨_, retrieve_of_buildIndex r0 docs meta dm r h q topK dmr,
    ?_, ?_⟩
  · rw [List.length_map, searchHits_length, List.length_map]
    omega
  · intro hlt
    rw [List.length_map, searchHits_length, List.length_map]
    omega

/-- Witness for C4 with `top_k = 5` larger than the corpus size `2`. -/
theorem retrieve_result_count_witness :
    ∃ res, retrieve retrW "xy" 5 () = Except.ok res
      ∧ res.length = min 5 (["a", "bcd"].length)
      ∧ (["a", "bcd"].length < 5 → res.length = ["a", "bcd"].length) :=
  retrieve_result_count retrW0 ["a", "bcd"] none () retrW (by rfl) "xy" 5 ()

/-- C8: `retrieve` on a retriever whose index is not built fails with
`NotBuilt`, and `query_and_summarize` on an unindexed pipeline fails with
`NotIndexed`; both methods leave the state unchanged. -/
theorem unready_state_errors {M : Type} (r : VectorRetriever M)
    (p : RAGPipeline M) (h : r.index = none) (hp : p.retriever = none)
    (q : String) (topK numSentences : Nat) (method : String) (dm : M) :
    retrieveStep r q topK dm = (Except.error PipelineError.notBuilt, r)
    ∧ queryAndSummarizeStep p q topK numSentences method dm =
        (Except.error PipelineError.notIndexed, p) := by
  constructor
  · simp [retrieveStep, retrieve, h]
  · simp [queryAndSummarizeStep, queryAndSummarize, hp]

/-- An unindexed pipeline over concrete components. -/
def pipeW : RAGPipeline Unit :=
  { embed := embedW
    sentTok := oneTok
    extScore := zeroScore
    statScore := zeroScore
    retriever := none }

/-- Witness for C8 on concrete unbuilt/unindexed states. -/
theorem unready_state_errors_witness :
    retrieveStep retrW0 "q" 2 ()
        = (Except.error PipelineError.notBuilt, retrW0)
    ∧ queryAndSummarizeStep pipeW "q" 2 3 "extractive" ()
        = (Except.error PipelineError.notIndexed, pipeW) :=
  unready_state_errors retrW0 pipeW rfl rfl "q" 2 3 "extractive" ()

/-- The pipeline after `index_documents(["hello world"])`. -/
def pipeWIndexed : RAGPipeline Unit :=
  match indexDocuments pipeW ["hello world"] none () with
  | .ok p => p
  | .error _ => pipeW

/-- C6 (divergence evaluation): at the failing input — an indexed pipeline
queried with the empty query `""`, which has fewer than 3 non-whitespace
characters — `query_and_summarize` performs no validation and succeeds,
instead of failing with an `InvalidInput` error as the specification and
the repository's own `test_empty_query` require. -/
theorem empty_query_code_result :
    queryAndSummarize pipeWIndexed "" 1 2 "extractive" () =
      Except.ok
        { query := ""
          retrievedDocuments :=
            [("hello world",
              1 / (1 + sqDist (embedW "") (embedW "hello world")), ())]
          summary := "hello world"
          numRetrieved := 1 } := by
  rfl

/-- C7 (divergence evaluation): at the failing input — the unregistered
method string `"invalid_method"` — `query_and_summarize` succeeds and
silently behaves exactly as the statistical family, instead of failing
with an `UnknownMethod` error as the specification and the repository's
own `test_invalid_method` require. -/
theorem unknown_method_code_result :
    queryAndSummarize pipeWIndexed "test" 1 2 "invalid_method" () =
      queryAndSummarize pipeWIndexed "test" 1 2 "statistical" ()
    ∧ (queryAndSummarize pipeWIndexed "test" 1 2 "invalid_method" ()).isOk
        = true := by
  constructor
  · rfl
  · rfl

end RagSummarizer
